import Mathlib

/-!
# Verification of the easy-tunnel-lb-agent core

Shallow embedding of the agent's routing table (`Router`, package
`loadbalancer`), tunnel registry (`Manager`, package `tunnel`), the
WireGuard peer-address allocator (`WireGuardManager`), and the HTTP
dispatch decision of `LoadBalancer.handleHTTPRequest`, together with
proofs about them.

Go maps are embedded as association lists whose key lists are `Nodup`;
`fmt.Errorf` failures are embedded as inductive error types, one
constructor per distinct error message.  External effects (shelling out
to `wg`, the system clock) are injected as explicit parameters.
-/

namespace EasyTunnelLB

set_option autoImplicit false

/-- Association-list lookup, the embedding of a Go map read `m[k]`. -/
def alookup {κ α : Type} [DecidableEq κ] (k : κ) : List (κ × α) → Option α
  | [] => none
  | (k', v) :: rest => if k' = k then some v else alookup k rest

theorem alookup_nil {κ α : Type} [DecidableEq κ] (k : κ) :
    alookup (α := α) k [] = none := rfl

theorem alookup_cons {κ α : Type} [DecidableEq κ] (k k' : κ) (v : α) (l : List (κ × α)) :
    alookup k ((k', v) :: l) = if k' = k then some v else alookup k l := rfl

theorem alookup_eq_none_iff {κ α : Type} [DecidableEq κ] (k : κ) (l : List (κ × α)) :
    alookup k l = none ↔ k ∉ l.map Prod.fst := by
  induction l with
  | nil => simp [alookup]
  | cons p rest ih =>
    obtain ⟨k', v⟩ := p
    by_cases h : k' = k <;> simp [alookup, h, ih, Ne.symm, eq_comm]

theorem alookup_isSome_of_mem {κ α : Type} [DecidableEq κ] (k : κ) (v : α)
    (l : List (κ × α)) (h : (k, v) ∈ l) : (alookup k l).isSome := by
  induction l with
  | nil => simp at h
  | cons p rest ih =>
    obtain ⟨k', v'⟩ := p
    rcases List.mem_cons.mp h with h' | h'
    · obtain ⟨rfl, rfl⟩ := Prod.mk.injEq .. ▸ h'
      simp [alookup]
    · by_cases hk : k' = k <;> simp [alookup, hk, ih h']

/-! ## Routing table (`Router`, internal/loadbalancer/router.go) -/

/-- `Target` from the loadbalancer package: a tunnel endpoint. -/
structure Target where
  id : String
  ip : String
  port : Int
  deriving DecidableEq, Repr

/-- `Router`: the routing table, two Go maps `hostMap` and `portMap`
(the `Config` pointer and the mutex carry no routing state and are
omitted). -/
structure Router where
  hostMap : List (String × Target)
  portMap : List (Int × Target)
  deriving DecidableEq, Repr

/-- `NewRouter`: both maps start empty. -/
def newRouter : Router := ⟨[], []⟩

/-- The two distinct `fmt.Errorf` failures of `Router.AddRoute`:
"hostname %s is already in use" and "port %d is already in use". -/
inductive RouteErr where
  | hostConflict
  | portConflict
  deriving DecidableEq, Repr

/-- `Router.AddRoute`, translated statement by statement: build the
target, fail if the hostname is bound, insert into the host map, then —
only when `port > 0` — fail if the port is bound, else insert into the
port map.  Note the host-map insert happens before the port check, so a
port conflict returns with the hostname entry already installed. -/
def addRoute (r : Router) (tunnelID hostname ip : String) (port : Int) :
    Except RouteErr Unit × Router :=
  let target : Target := ⟨tunnelID, ip, port⟩
  match alookup hostname r.hostMap with
  | some _ => (.error .hostConflict, r)
  | none =>
    let r1 : Router := { r with hostMap := (hostname, target) :: r.hostMap }
    if port > 0 then
      match alookup port r1.portMap with
      | some _ => (.error .portConflict, r1)
      | none => (.ok (), { r1 with portMap := (port, target) :: r1.portMap })
    else
      (.ok (), r1)

/-- `Router.RemoveRoute`: delete every entry of either map whose stored
target identifier equals `tunnelID`; returns nothing (never an error). -/
def removeRoute (r : Router) (tunnelID : String) : Router :=
  { hostMap := r.hostMap.filter (fun p => p.2.id ≠ tunnelID),
    portMap := r.portMap.filter (fun p => p.2.id ≠ tunnelID) }

/-- `Router.GetTunnelByHost`: map read; `none` embeds the
"no tunnel found for hostname" error. -/
def getTunnelByHost (r : Router) (hostname : String) : Option Target :=
  alookup hostname r.hostMap

/-- `Router.GetTunnelByPort`: map read; `none` embeds the
"no tunnel found for port" error. -/
def getTunnelByPort (r : Router) (port : Int) : Option Target :=
  alookup port r.portMap

/-- `Router.ListRoutes`: snapshot copy of the host map. -/
def listRoutes (r : Router) : List (String × Target) := r.hostMap

/-- The routing-table invariant: no two entries of the host map share a
hostname, and no two entries of the port map share a port (Go-map key
uniqueness). -/
def RouterInv (r : Router) : Prop :=
  (r.hostMap.map Prod.fst).Nodup ∧ (r.portMap.map Prod.fst).Nodup

instance (r : Router) : Decidable (RouterInv r) := by
  unfold RouterInv; infer_instance

/-! ## WireGuard peer-address allocator (`WireGuardManager`,
internal/tunnel/wireguard.go) -/

/-- Byte-wise increment of the reversed byte list: Go's
`for i := len(ip)-1; i >= 0; i-- { ip[i]++; if ip[i] != 0 { break } }`.
Each Go byte wraps modulo 256. -/
def incBytesRev : List Nat → List Nat
  | [] => []
  | b :: rest =>
    if (b + 1) % 256 = 0 then 0 :: incBytesRev rest else ((b + 1) % 256) :: rest

/-- Network-order increment of an IP given as its byte list (most
significant byte first), as performed inside `allocateIP`. -/
def incIP (ip : List Nat) : List Nat := (incBytesRev ip.reverse).reverse

/-- Go's `IP.To4`: a 4-byte address is returned as is; a 16-byte address
is accepted when it is the IPv4-in-IPv6 form (ten zero bytes then
`0xff 0xff`), yielding its last four bytes; anything else is `nil`. -/
def to4 (ip : List Nat) : Option (List Nat) :=
  if ip.length = 4 then some ip
  else if ip.length = 16 ∧ ip.take 10 = List.replicate 10 0 ∧
      ip.get? 10 = some 255 ∧ ip.get? 11 = some 255 then
    some (ip.drop 12)
  else none

/-- Byte-wise masked comparison from Go's `IPNet.Contains`:
`nn[i]&m[i] == ip[i]&m[i]` for every index. -/
def maskedEq : List Nat → List Nat → List Nat → Bool
  | [], [], [] => true
  | n :: ns, m :: ms, i :: is => (Nat.land n m = Nat.land i m) && maskedEq ns ms is
  | _, _, _ => false

/-- Go's `IPNet.Contains`: convert the queried address with `To4` when
possible, require equal lengths, then compare under the mask. -/
def ipnetContains (nn mask ip : List Nat) : Bool :=
  let ip' := match to4 ip with
    | some x => x
    | none => ip
  decide (ip'.length = nn.length) && maskedEq nn mask ip'

/-- `WireGuardManager` state: the configured block (`ipNet`, stored as
its network-number and mask bytes), the next address to hand out, and
the fixed listening port.  The logger and interface name carry no
allocation state. -/
structure WireGuardManager where
  basePort : Int
  netBytes : List Nat
  maskBytes : List Nat
  nextIP : List Nat
  deriving DecidableEq, Repr

/-- `NewWireGuardManager`: block `10.10.0.0/16`, first cursor value
`10.10.0.1` (Go's `net.ParseIP` yields the 16-byte IPv4-in-IPv6 form). -/
def newWireGuardManager : WireGuardManager :=
  { basePort := 51820,
    netBytes := [10, 10, 0, 0],
    maskBytes := [255, 255, 0, 0],
    nextIP := [0, 0, 0, 0, 0, 0, 0, 0, 0, 0, 255, 255, 10, 10, 0, 1] }

/-- `allocateIP`: increment a copy of `nextIP`; if the result is still
inside the block, commit it as the new cursor and return it, else
return `nil` and leave the cursor alone. -/
def allocateIP (w : WireGuardManager) : Option (List Nat) × WireGuardManager :=
  let ip := incIP w.nextIP
  if ipnetContains w.netBytes w.maskBytes ip then
    (some ip, { w with nextIP := ip })
  else
    (none, w)

/-- The distinct failure messages of `SetupPeer`: key generation
("failed to generate private key" / "... public key"), address
exhaustion ("failed to allocate IP for peer"), and peer registration
("failed to add WireGuard peer"). -/
inductive WGErr where
  | genPrivFailure
  | genPubFailure
  | allocFailure
  | addPeerFailure
  deriving DecidableEq, Repr

/-- `WireGuardConfig` from the tunnel package. -/
structure WireGuardConfig where
  publicKey : String
  privateKey : String
  serverIP : List Nat
  clientIP : List Nat
  port : Int
  deriving DecidableEq, Repr

/-- `WireGuardManager.SetupPeer`.  The three external effects — the two
`wg` key-generation invocations and the `wg set … peer` registration —
are injected as parameters (`privRes`, `pubRes`, `addPeerOk`).  Note
that `allocateIP` commits the new cursor before `addPeer` runs, so an
`addPeer` failure returns with the cursor already advanced; note also
that `ServerIP` reads `w.nextIP` after that commit, so it equals the
peer's address. -/
def setupPeer (w : WireGuardManager) (privRes pubRes : Option String)
    (addPeerOk : Bool) : Except WGErr WireGuardConfig × WireGuardManager :=
  match privRes with
  | none => (.error .genPrivFailure, w)
  | some privKey =>
    match pubRes with
    | none => (.error .genPubFailure, w)
    | some pubKey =>
      let res := allocateIP w
      match res.1 with
      | none => (.error .allocFailure, res.2)
      | some peerIP =>
        let config : WireGuardConfig :=
          { publicKey := pubKey, privateKey := privKey,
            serverIP := res.2.nextIP, clientIP := peerIP,
            port := w.basePort }
        if addPeerOk then (.ok config, res.2)
        else (.error .addPeerFailure, res.2)

/-! ## Tunnel registry (`Manager`, internal/tunnel/manager.go) -/

/-- `TunnelInfo`: one live tunnel record.  Timestamps are abstract
clock readings (`Nat`). -/
structure TunnelInfo where
  id : String
  hostname : String
  targetPort : Int
  publicEndpoint : String
  created : Nat
  lastActive : Nat
  wireGuardConfig : Option WireGuardConfig
  metadata : List (String × String)
  deriving DecidableEq, Repr

/-- The distinct failure messages of `CreateTunnel` and `RemoveTunnel`:
"maximum number of tunnels (%d) reached", "tunnel with ID %s already
exists", "failed to setup WireGuard peer: %v", and "tunnel with ID %s
not found". -/
inductive TunnelErr where
  | capacityExceeded
  | conflict
  | provisioning (e : WGErr)
  | notFound
  deriving DecidableEq, Repr

/-- `Manager`: the tunnel map, the configured maximum, and the owned
`WireGuardManager` (logger and mutex omitted). -/
structure Manager where
  tunnels : List (String × TunnelInfo)
  maxTunnels : Int
  wg : WireGuardManager
  deriving DecidableEq, Repr

/-- `NewManager`. -/
def newManager (maxTunnels : Int) : Manager :=
  { tunnels := [], maxTunnels := maxTunnels, wg := newWireGuardManager }

/-- `Manager.CreateTunnel`, translated in source order: the capacity
check (`len(m.tunnels) >= m.maxTunnels`) comes first, then the
duplicate-identifier check, then — only when `wgPubKey` is non-empty —
the `SetupPeer` call (whose external effects are injected as `privRes`,
`pubRes`, `addPeerOk`; its state change to the allocator is kept even
when it fails, since `SetupPeer` mutates the shared `WireGuardManager`
in place), and finally the map insert.  `now` injects `time.Now()`. -/
def createTunnel (m : Manager) (id hostname : String) (targetPort : Int)
    (wgPubKey : String) (metadata : List (String × String)) (now : Nat)
    (privRes pubRes : Option String) (addPeerOk : Bool) :
    Except TunnelErr TunnelInfo × Manager :=
  if (m.tunnels.length : Int) ≥ m.maxTunnels then
    (.error .capacityExceeded, m)
  else
    match alookup id m.tunnels with
    | some _ => (.error .conflict, m)
    | none =>
      let tunnel : TunnelInfo :=
        { id := id, hostname := hostname, targetPort := targetPort,
          publicEndpoint := "", created := now, lastActive := now,
          wireGuardConfig := none, metadata := metadata }
      if wgPubKey ≠ "" then
        let res := setupPeer m.wg privRes pubRes addPeerOk
        match res.1 with
        | .error e => (.error (.provisioning e), { m with wg := res.2 })
        | .ok wgConfig =>
          let tunnel' := { tunnel with wireGuardConfig := some wgConfig }
          (.ok tunnel', { m with tunnels := (id, tunnel') :: m.tunnels, wg := res.2 })
      else
        (.ok tunnel, { m with tunnels := (id, tunnel) :: m.tunnels })

/-- `Manager.RemoveTunnel`: `NotFound` when absent; a `RemovePeer`
failure is logged, never propagated, so the delete always proceeds once
the identifier is found. -/
def removeTunnel (m : Manager) (id : String) : Except TunnelErr Unit × Manager :=
  match alookup id m.tunnels with
  | none => (.error .notFound, m)
  | some _ => (.ok (), { m with tunnels := m.tunnels.filter (fun p => p.1 ≠ id) })

/-- `Manager.GetTunnel`: map read; `none` embeds "tunnel … not found". -/
def getTunnel (m : Manager) (id : String) : Option TunnelInfo :=
  alookup id m.tunnels

/-- One management-interface operation against the registry, for
stating properties of arbitrary call sequences. -/
inductive Op where
  | create (id hostname : String) (targetPort : Int) (wgPubKey : String)
      (metadata : List (String × String)) (now : Nat)
      (privRes pubRes : Option String) (addPeerOk : Bool)
  | remove (id : String)

/-- Apply one operation to the registry, keeping the post state. -/
def applyOp (m : Manager) : Op → Manager
  | .create id hostname targetPort wgPubKey metadata now privRes pubRes addPeerOk =>
    (createTunnel m id hostname targetPort wgPubKey metadata now privRes pubRes addPeerOk).2
  | .remove id => (removeTunnel m id).2

/-- Apply a sequence of operations. -/
def runOps (m : Manager) (ops : List Op) : Manager :=
  ops.foldl applyOp m

/-! ## HTTP dispatch (`LoadBalancer.handleHTTPRequest`,
internal/loadbalancer/loadbalancer.go) -/

/-- Outcome of handling one inbound HTTP request: either the
`http.Error(w, "Service Unavailable", http.StatusServiceUnavailable)`
response with no outbound connection, or a reverse-proxy hop to the
rewritten destination `target.IP:target.Port` with the original Host
header preserved. -/
inductive HTTPResult where
  | errorResponse (body : String) (status : Nat)
  | proxied (target : Target) (urlHost : String) (hostHeader : String)
  deriving DecidableEq, Repr

/-- `LoadBalancer.handleHTTPRequest`, the routing decision: resolve the
request's Host against the table; on a miss answer 503 and stop; on a
hit rewrite the destination and forward. -/
def handleHTTPRequest (router : Router) (host : String) : HTTPResult :=
  match getTunnelByHost router host with
  | none => .errorResponse "Service Unavailable" 503
  | some target =>
    .proxied target (target.ip ++ ":" ++ toString target.port) host

/-! ## Helper lemmas about association lists -/

theorem alookup_eq_some_mem {κ α : Type} [DecidableEq κ] {k : κ} {v : α}
    {l : List (κ × α)} (h : alookup k l = some v) : (k, v) ∈ l := by
  induction l with
  | nil => simp [alookup] at h
  | cons p rest ih =>
    obtain ⟨k', v'⟩ := p
    by_cases hk : k' = k
    · subst hk
      simp [alookup] at h
      simp [h]
    · simp [alookup, hk] at h
      exact List.mem_cons_of_mem _ (ih h)

theorem mem_unique_of_nodup_keys {κ α : Type} {k : κ} {v₁ v₂ : α}
    {l : List (κ × α)} (hnd : (l.map Prod.fst).Nodup)
    (h₁ : (k, v₁) ∈ l) (h₂ : (k, v₂) ∈ l) : v₁ = v₂ := by
  induction l with
  | nil => simp at h₁
  | cons p rest ih =>
    rw [List.map_cons, List.nodup_cons] at hnd
    rcases List.mem_cons.mp h₁ with e₁ | m₁ <;>
      rcases List.mem_cons.mp h₂ with e₂ | m₂
    · rw [← e₁] at e₂; exact (Prod.mk.injEq .. ▸ e₂).2.symm
    · exact absurd (show p.1 ∈ rest.map Prod.fst by
        rw [← e₁]; exact List.mem_map.mpr ⟨(k, v₂), m₂, rfl⟩) hnd.1
    · exact absurd (show p.1 ∈ rest.map Prod.fst by
        rw [← e₂]; exact List.mem_map.mpr ⟨(k, v₁), m₁, rfl⟩) hnd.1
    · exact ih hnd.2 m₁ m₂

/-! ## Claims about the routing table -/

/-- **C7** (confirmed).  A successful `addRoute(id, hostname, ip, port)`
installs the hostname mapping unconditionally; it installs the port
mapping exactly when `port > 0`, and when `port ≤ 0` the port map is
untouched; a port conflict is reported only when `port > 0` and the
port was already bound before the call. -/
theorem addRoute_success_installs (r : Router) (id hostname ip : String) (port : Int) :
    ((addRoute r id hostname ip port).1 = .ok () →
      getTunnelByHost (addRoute r id hostname ip port).2 hostname = some ⟨id, ip, port⟩ ∧
      (port > 0 →
        getTunnelByPort (addRoute r id hostname ip port).2 port = some ⟨id, ip, port⟩) ∧
      (¬ port > 0 → (addRoute r id hostname ip port).2.portMap = r.portMap)) ∧
    ((addRoute r id hostname ip port).1 = .error .portConflict →
      port > 0 ∧ (alookup port r.portMap).isSome) := by
  unfold addRoute getTunnelByHost getTunnelByPort
  cases h1 : alookup hostname r.hostMap with
  | some t => simp
  | none =>
    by_cases hp : port > 0
    · simp only [hp, if_true]
      cases h2 : alookup port r.portMap with
      | some t => simp [h2]
      | none => simp [h2, alookup, hp]
    · simp [hp, alookup]

/-- Witness for `addRoute_success_installs` at the spec's concrete
scenario route `("t1", "a.example.com", "10.0.0.1", 8080)`. -/
theorem addRoute_success_installs_witness :
    getTunnelByHost (addRoute newRouter "t1" "a.example.com" "10.0.0.1" 8080).2
        "a.example.com" = some ⟨"t1", "10.0.0.1", 8080⟩ ∧
    getTunnelByPort (addRoute newRouter "t1" "a.example.com" "10.0.0.1" 8080).2
        8080 = some ⟨"t1", "10.0.0.1", 8080⟩ :=
  let h := (addRoute_success_installs newRouter "t1" "a.example.com" "10.0.0.1" 8080).1 rfl
  ⟨h.1, h.2.1 (by decide)⟩

/-- **C8** (confirmed).  `removeRoute(id)` removes exactly the entries
(of both maps) whose stored target identifier equals `id`; it is a
no-op when nothing matches; and, on a table whose map keys are unique,
any hostname or port that resolved to a target with identifier `id`
before the call resolves to nothing afterwards. -/
theorem removeRoute_removes_exactly (r : Router) (id : String) (hinv : RouterInv r) :
    (∀ p : String × Target,
      p ∈ (removeRoute r id).hostMap ↔ p ∈ r.hostMap ∧ p.2.id ≠ id) ∧
    (∀ q : Int × Target,
      q ∈ (removeRoute r id).portMap ↔ q ∈ r.portMap ∧ q.2.id ≠ id) ∧
    ((∀ p ∈ r.hostMap, p.2.id ≠ id) → (∀ q ∈ r.portMap, q.2.id ≠ id) →
      removeRoute r id = r) ∧
    (∀ h t, getTunnelByHost r h = some t → t.id = id →
      getTunnelByHost (removeRoute r id) h = none) ∧
    (∀ pt t, getTunnelByPort r pt = some t → t.id = id →
      getTunnelByPort (removeRoute r id) pt = none) := by
  refine ⟨?_, ?_, ?_, ?_, ?_⟩
  · intro p
    simp [removeRoute, List.mem_filter]
  · intro q
    simp [removeRoute, List.mem_filter]
  · intro hh hp
    unfold removeRoute
    have e1 : r.hostMap.filter (fun p => p.2.id ≠ id) = r.hostMap := by
      apply List.filter_eq_self.mpr
      intro p hp'
      simpa using hh p hp'
    have e2 : r.portMap.filter (fun p => p.2.id ≠ id) = r.portMap := by
      apply List.filter_eq_self.mpr
      intro q hq'
      simpa using hp q hq'
    rw [e1, e2]
  · intro h t hlook hid
    have hmem := alookup_eq_some_mem hlook
    rw [getTunnelByHost, alookup_eq_none_iff]
    intro hk
    obtain ⟨⟨k', t'⟩, hmem', hfst⟩ := List.mem_map.mp hk
    have hmem'' := (List.mem_filter.mp hmem')
    have : t' = t := mem_unique_of_nodup_keys hinv.1 (hfst ▸ hmem''.1) hmem
    rw [this] at hmem''
    have hne : t.id ≠ id := by simpa using hmem''.2
    exact hne hid
  · intro pt t hlook hid
    have hmem := alookup_eq_some_mem hlook
    rw [getTunnelByPort, alookup_eq_none_iff]
    intro hk
    obtain ⟨⟨k', t'⟩, hmem', hfst⟩ := List.mem_map.mp hk
    have hmem'' := (List.mem_filter.mp hmem')
    have : t' = t := mem_unique_of_nodup_keys hinv.2 (hfst ▸ hmem''.1) hmem
    rw [this] at hmem''
    have hne : t.id ≠ id := by simpa using hmem''.2
    exact hne hid

/-- Witness for `removeRoute_removes_exactly`: install the route
`("t1", "test.example.com", "10.0.0.1", 8080)` in an empty table, remove
`"t1"`, and both lookups on the former keys miss. -/
theorem removeRoute_removes_exactly_witness :
    getTunnelByHost
        (removeRoute (addRoute newRouter "t1" "test.example.com" "10.0.0.1" 8080).2 "t1")
        "test.example.com" = none ∧
    getTunnelByPort
        (removeRoute (addRoute newRouter "t1" "test.example.com" "10.0.0.1" 8080).2 "t1")
        8080 = none :=
  let h := removeRoute_removes_exactly
    (addRoute newRouter "t1" "test.example.com" "10.0.0.1" 8080).2 "t1" (by decide)
  ⟨h.2.2.2.1 "test.example.com" ⟨"t1", "10.0.0.1", 8080⟩ rfl rfl,
   h.2.2.2.2 8080 ⟨"t1", "10.0.0.1", 8080⟩ rfl rfl⟩

/-- **C9** (confirmed).  When the request's Host resolves to nothing in
the routing table, `handleHTTPRequest` answers 503 "Service
Unavailable" and the outcome is never a proxied hop, i.e. no outbound
connection is attempted. -/
theorem handleHTTPRequest_miss_503 (r : Router) (host : String)
    (h : getTunnelByHost r host = none) :
    handleHTTPRequest r host = .errorResponse "Service Unavailable" 503 ∧
    ∀ (t : Target) (u hh : String), handleHTTPRequest r host ≠ .proxied t u hh := by
  have hmain : handleHTTPRequest r host = .errorResponse "Service Unavailable" 503 := by
    unfold handleHTTPRequest
    rw [h]
  exact ⟨hmain, fun t u hh hc => by rw [hmain] at hc; exact HTTPResult.noConfusion hc⟩

/-- Witness for `handleHTTPRequest_miss_503` at the spec's concrete
scenario: `Host: unknown.example.com` against the empty table. -/
theorem handleHTTPRequest_miss_503_witness :
    handleHTTPRequest newRouter "unknown.example.com" =
      .errorResponse "Service Unavailable" 503 :=
  (handleHTTPRequest_miss_503 newRouter "unknown.example.com" rfl).1

/-- **C1** counterexample.  After `addRoute("t1","a.example.com",…,8080)`
succeeds, the call `addRoute("t2","b.example.com",…,8080)` is rejected
with the port conflict, yet it does NOT leave the table as it was: the
hostname entry for `b.example.com` is installed before the port check
and is not rolled back.  This refutes "leaves the table exactly as it
was before that call". -/
theorem addRoute_port_conflict_mutates :
    (addRoute (addRoute newRouter "t1" "a.example.com" "10.0.0.1" 8080).2
        "t2" "b.example.com" "10.0.0.2" 8080).1 = .error .portConflict ∧
    (addRoute (addRoute newRouter "t1" "a.example.com" "10.0.0.1" 8080).2
        "t2" "b.example.com" "10.0.0.2" 8080).2 ≠
      (addRoute newRouter "t1" "a.example.com" "10.0.0.1" 8080).2 ∧
    getTunnelByHost
        (addRoute (addRoute newRouter "t1" "a.example.com" "10.0.0.1" 8080).2
          "t2" "b.example.com" "10.0.0.2" 8080).2
        "b.example.com" = some ⟨"t2", "10.0.0.2", 8080⟩ := by
  refine ⟨rfl, ?_, rfl⟩
  intro hc
  have h3 : getTunnelByHost
      (addRoute (addRoute newRouter "t1" "a.example.com" "10.0.0.1" 8080).2
        "t2" "b.example.com" "10.0.0.2" 8080).2 "b.example.com" =
      some ⟨"t2", "10.0.0.2", 8080⟩ := rfl
  have hnone : getTunnelByHost
      (addRoute newRouter "t1" "a.example.com" "10.0.0.1" 8080).2 "b.example.com" =
      none := by decide
  rw [hc, hnone] at h3
  exact Option.noConfusion h3

/-- **C1** amended: on a table whose map keys are unique, every
`addRoute` call preserves key uniqueness of both maps (no two live
entries share a hostname, no two port-map entries share a port);
a bound hostname is rejected with the hostname conflict and leaves the
table unchanged; a bound port (`port > 0`) on a fresh hostname is
rejected with the port conflict and leaves the port map unchanged, but
the hostname entry remains installed (it is not rolled back). -/
theorem addRoute_uniqueness (r : Router) (id hostname ip : String) (port : Int)
    (hinv : RouterInv r) :
    RouterInv (addRoute r id hostname ip port).2 ∧
    ((alookup hostname r.hostMap).isSome →
      (addRoute r id hostname ip port).1 = .error .hostConflict ∧
      (addRoute r id hostname ip port).2 = r) ∧
    (alookup hostname r.hostMap = none → port > 0 →
      (alookup port r.portMap).isSome →
      (addRoute r id hostname ip port).1 = .error .portConflict ∧
      (addRoute r id hostname ip port).2.portMap = r.portMap ∧
      (addRoute r id hostname ip port).2.hostMap =
        (hostname, ⟨id, ip, port⟩) :: r.hostMap) := by
  unfold addRoute RouterInv
  cases h1 : alookup hostname r.hostMap with
  | some t => simpa [h1] using hinv
  | none =>
    have hhost : hostname ∉ r.hostMap.map Prod.fst := (alookup_eq_none_iff _ _).mp h1
    by_cases hp : port > 0
    · cases h2 : alookup port r.portMap with
      | some t =>
        simp [hp, h1, h2, List.nodup_cons, hhost, hinv.1, hinv.2]
      | none =>
        have hport : port ∉ r.portMap.map Prod.fst := (alookup_eq_none_iff _ _).mp h2
        simp [hp, h1, h2, List.nodup_cons, hhost, hport, hinv.1, hinv.2]
    · simp [hp, h1, List.nodup_cons, hhost, hinv.1, hinv.2]

/-- Witness for `addRoute_uniqueness`: a duplicate hostname on a
one-route table is rejected and the table is unchanged. -/
theorem addRoute_uniqueness_witness :
    (addRoute (addRoute newRouter "t1" "a.example.com" "10.0.0.1" 8080).2
        "t2" "a.example.com" "10.0.0.2" 8081).1 = .error .hostConflict ∧
    (addRoute (addRoute newRouter "t1" "a.example.com" "10.0.0.1" 8080).2
        "t2" "a.example.com" "10.0.0.2" 8081).2 =
      (addRoute newRouter "t1" "a.example.com" "10.0.0.1" 8080).2 :=
  (addRoute_uniqueness (addRoute newRouter "t1" "a.example.com" "10.0.0.1" 8080).2
    "t2" "a.example.com" "10.0.0.2" 8081 (by decide)).2.1 (by decide)

/-! ## Claims about the tunnel registry -/

/-- `createTunnel` leaves `maxTunnels` alone and never grows the tunnel
map beyond the configured maximum, provided it was within bounds. -/
theorem createTunnel_length_le (m : Manager) (id hostname : String) (targetPort : Int)
    (wgPubKey : String) (metadata : List (String × String)) (now : Nat)
    (privRes pubRes : Option String) (addPeerOk : Bool)
    (hle : (m.tunnels.length : Int) ≤ m.maxTunnels) :
    ((createTunnel m id hostname targetPort wgPubKey metadata now
        privRes pubRes addPeerOk).2.tunnels.length : Int) ≤
      (createTunnel m id hostname targetPort wgPubKey metadata now
        privRes pubRes addPeerOk).2.maxTunnels ∧
    (createTunnel m id hostname targetPort wgPubKey metadata now
        privRes pubRes addPeerOk).2.maxTunnels = m.maxTunnels := by
  unfold createTunnel
  by_cases hcap : (m.tunnels.length : Int) ≥ m.maxTunnels
  · simp [hcap, hle]
  · have hlt : (m.tunnels.length : Int) < m.maxTunnels := lt_of_not_ge hcap
    cases h1 : alookup id m.tunnels with
    | some t => simp [hcap, hle]
    | none =>
      by_cases hwg : wgPubKey ≠ ""
      · cases h2 : (setupPeer m.wg privRes pubRes addPeerOk).1 with
        | error e => simp [hcap, h1, hwg, h2, hle]
        | ok cfg =>
          simp [hcap, h1, hwg, h2]
          omega
      · simp [hcap, h1, hwg]
        omega

/-- `removeTunnel` leaves `maxTunnels` alone and never grows the
tunnel map. -/
theorem removeTunnel_length_le (m : Manager) (id : String)
    (hle : (m.tunnels.length : Int) ≤ m.maxTunnels) :
    ((removeTunnel m id).2.tunnels.length : Int) ≤ (removeTunnel m id).2.maxTunnels ∧
    (removeTunnel m id).2.maxTunnels = m.maxTunnels := by
  unfold removeTunnel
  cases h1 : alookup id m.tunnels with
  | none => exact ⟨hle, rfl⟩
  | some t =>
    refine ⟨?_, rfl⟩
    simp only
    calc ((m.tunnels.filter (fun p => p.1 ≠ id)).length : Int)
        ≤ (m.tunnels.length : Int) := by
          exact_mod_cast List.length_filter_le _ _
      _ ≤ m.maxTunnels := hle

/-- Every management operation preserves the capacity bound. -/
theorem applyOp_preserves_capacity (m : Manager) (op : Op)
    (hle : (m.tunnels.length : Int) ≤ m.maxTunnels) :
    ((applyOp m op).tunnels.length : Int) ≤ (applyOp m op).maxTunnels ∧
    (applyOp m op).maxTunnels = m.maxTunnels := by
  cases op with
  | create id hostname targetPort wgPubKey metadata now privRes pubRes addPeerOk =>
    exact createTunnel_length_le m id hostname targetPort wgPubKey metadata now
      privRes pubRes addPeerOk hle
  | remove id => exact removeTunnel_length_le m id hle

/-- **C3** (confirmed).  A `createTunnel` call made while the live
count has reached the configured maximum fails with `CapacityExceeded`
and inserts nothing, and starting from any registry within its bound
the live count never exceeds the configured maximum after any sequence
of create/remove operations. -/
theorem createTunnel_capacity (m : Manager)
    (hle : (m.tunnels.length : Int) ≤ m.maxTunnels) :
    (∀ (id hostname : String) (targetPort : Int) (wgPubKey : String)
        (metadata : List (String × String)) (now : Nat)
        (privRes pubRes : Option String) (addPeerOk : Bool),
      (m.tunnels.length : Int) ≥ m.maxTunnels →
        createTunnel m id hostname targetPort wgPubKey metadata now
            privRes pubRes addPeerOk = (.error .capacityExceeded, m)) ∧
    (∀ ops : List Op, ((runOps m ops).tunnels.length : Int) ≤ m.maxTunnels) := by
  constructor
  · intro id hostname targetPort wgPubKey metadata now privRes pubRes addPeerOk hcap
    unfold createTunnel
    simp [hcap]
  · intro ops
    induction ops generalizing m with
    | nil => simpa [runOps] using hle
    | cons op rest ih =>
      have hstep := applyOp_preserves_capacity m op hle
      have := ih (applyOp m op) hstep.1
      rw [hstep.2] at this
      simpa [runOps, List.foldl_cons] using this

/-- Witness for `createTunnel_capacity`, following the spec's concrete
scenario with `max = 1`: create "a" (succeeds), create "b" (fails with
`CapacityExceeded`), remove "a", create "b" again (succeeds); the live
count stays within the bound throughout. -/
theorem createTunnel_capacity_witness :
    (((runOps (newManager 1)
        [.create "a" "a.example.com" 8080 "" [] 0 none none true,
         .create "b" "b.example.com" 8081 "" [] 1 none none true,
         .remove "a",
         .create "b" "b.example.com" 8081 "" [] 2 none none true]).tunnels.length : Int)
      ≤ 1) ∧
    (createTunnel (applyOp (newManager 1)
        (.create "a" "a.example.com" 8080 "" [] 0 none none true))
        "b" "b.example.com" 8081 "" [] 1 none none true =
      (.error .capacityExceeded,
        applyOp (newManager 1) (.create "a" "a.example.com" 8080 "" [] 0 none none true))) :=
  ⟨(createTunnel_capacity (newManager 1) (by decide)).2 _,
   (createTunnel_capacity (applyOp (newManager 1)
        (.create "a" "a.example.com" 8080 "" [] 0 none none true)) (by decide)).1
      "b" "b.example.com" 8081 "" [] 1 none none true (by decide)⟩

/-- **C5** counterexample.  On a registry at capacity (max = 1) that
already contains a live tunnel `"a"`, `createTunnel("a", …)` fails with
`CapacityExceeded`, not `Conflict`: the capacity check runs before the
duplicate-identifier check.  This refutes "createTunnel(id, ...) fails
with Conflict" for every state containing `id`. -/
theorem createTunnel_existing_id_capacity_first :
    (alookup "a" (applyOp (newManager 1)
        (.create "a" "a.example.com" 8080 "" [] 0 none none true)).tunnels).isSome ∧
    (createTunnel (applyOp (newManager 1)
        (.create "a" "a.example.com" 8080 "" [] 0 none none true))
        "a" "a.example.com" 8080 "" [] 1 none none true).1 = .error .capacityExceeded ∧
    (createTunnel (applyOp (newManager 1)
        (.create "a" "a.example.com" 8080 "" [] 0 none none true))
        "a" "a.example.com" 8080 "" [] 1 none none true).1 ≠ .error .conflict := by
  refine ⟨rfl, rfl, ?_⟩
  intro hc
  have h3 : (Except.error .capacityExceeded : Except TunnelErr TunnelInfo) =
      .error .conflict := hc
  simp at h3

/-- **C5** amended: on a registry containing a live tunnel with
identifier `id`, `createTunnel(id, …)` always fails and leaves the
registry — in particular the existing record and the set of live
tunnels — unchanged; the failure is `Conflict` when the live count is
below the configured maximum and `CapacityExceeded` otherwise. -/
theorem createTunnel_existing_id (m : Manager) (id hostname : String)
    (targetPort : Int) (wgPubKey : String) (metadata : List (String × String))
    (now : Nat) (privRes pubRes : Option String) (addPeerOk : Bool)
    (rec : TunnelInfo) (hid : alookup id m.tunnels = some rec) :
    (createTunnel m id hostname targetPort wgPubKey metadata now
        privRes pubRes addPeerOk).2 = m ∧
    getTunnel (createTunnel m id hostname targetPort wgPubKey metadata now
        privRes pubRes addPeerOk).2 id = some rec ∧
    ((m.tunnels.length : Int) < m.maxTunnels →
      (createTunnel m id hostname targetPort wgPubKey metadata now
          privRes pubRes addPeerOk).1 = .error .conflict) ∧
    ((m.tunnels.length : Int) ≥ m.maxTunnels →
      (createTunnel m id hostname targetPort wgPubKey metadata now
          privRes pubRes addPeerOk).1 = .error .capacityExceeded) := by
  unfold createTunnel
  by_cases hcap : (m.tunnels.length : Int) ≥ m.maxTunnels
  · simp [hcap, getTunnel, hid]
  · simp [hcap, hid, getTunnel]

/-- Witness for `createTunnel_existing_id`: a duplicate identifier on a
registry with spare capacity is rejected with `Conflict` and the
registry keeps the original record. -/
theorem createTunnel_existing_id_witness :
    (createTunnel (applyOp (newManager 2)
        (.create "test-1" "test1.example.com" 8080 "" [] 0 none none true))
        "test-1" "test2.example.com" 8081 "" [] 1 none none true).1 =
      .error .conflict ∧
    (createTunnel (applyOp (newManager 2)
        (.create "test-1" "test1.example.com" 8080 "" [] 0 none none true))
        "test-1" "test2.example.com" 8081 "" [] 1 none none true).2 =
      applyOp (newManager 2)
        (.create "test-1" "test1.example.com" 8080 "" [] 0 none none true) :=
  let h := createTunnel_existing_id
    (applyOp (newManager 2) (.create "test-1" "test1.example.com" 8080 "" [] 0 none none true))
    "test-1" "test2.example.com" 8081 "" [] 1 none none true
    { id := "test-1", hostname := "test1.example.com", targetPort := 8080,
      publicEndpoint := "", created := 0, lastActive := 0,
      wireGuardConfig := none, metadata := [] } rfl
  ⟨h.2.2.1 (by decide), h.1⟩

/-- **C6** (confirmed).  When the registry has spare capacity, the
identifier is fresh, a peer public key is supplied, and the peer
allocator's provisioning fails, `createTunnel` returns that failure and
the tunnel map is exactly as before the call — in particular no record
with the identifier exists: the tunnel is not partially created. -/
theorem createTunnel_alloc_failure_aborts (m : Manager) (id hostname : String)
    (targetPort : Int) (wgPubKey : String) (metadata : List (String × String))
    (now : Nat) (privRes pubRes : Option String) (addPeerOk : Bool) (e : WGErr)
    (hcap : (m.tunnels.length : Int) < m.maxTunnels)
    (hid : alookup id m.tunnels = none)
    (hwg : wgPubKey ≠ "")
    (hfail : (setupPeer m.wg privRes pubRes addPeerOk).1 = .error e) :
    (createTunnel m id hostname targetPort wgPubKey metadata now
        privRes pubRes addPeerOk).1 = .error (.provisioning e) ∧
    (createTunnel m id hostname targetPort wgPubKey metadata now
        privRes pubRes addPeerOk).2.tunnels = m.tunnels ∧
    getTunnel (createTunnel m id hostname targetPort wgPubKey metadata now
        privRes pubRes addPeerOk).2 id = none := by
  have hcap' : ¬ ((m.tunnels.length : Int) ≥ m.maxTunnels) := not_le.mpr hcap
  unfold createTunnel
  simp [hcap', hid, hwg, hfail, getTunnel]

/-- Witness for `createTunnel_alloc_failure_aborts`: a fresh registry
with room, a non-empty peer key and a failing key generation; the
provisioning error is surfaced and no record is created. -/
theorem createTunnel_alloc_failure_aborts_witness :
    (createTunnel (newManager 5) "t1" "a.example.com" 8080 "pubkey" [] 0
        none (some "p") true).1 = .error (.provisioning .genPrivFailure) ∧
    getTunnel (createTunnel (newManager 5) "t1" "a.example.com" 8080 "pubkey" [] 0
        none (some "p") true).2 "t1" = none :=
  let h := createTunnel_alloc_failure_aborts (newManager 5) "t1" "a.example.com"
    8080 "pubkey" [] 0 none (some "p") true .genPrivFailure
    (by decide) rfl (by decide) rfl
  ⟨h.1, h.2.2⟩

/-! ## Claims about the peer-address allocator -/

/-- **C2** counterexample.  On the freshly constructed allocator, a
`SetupPeer` call whose key generation succeeds but whose peer
registration (`wg set … peer …`) fails returns the registration error
with the next-address cursor already advanced (from `10.10.0.1` to
`10.10.0.2`): the address is consumed on this failed provisioning
attempt.  This refutes "the allocator's next-address cursor is
unchanged" for peer-registration failures. -/
theorem setupPeer_addPeer_failure_advances :
    (setupPeer newWireGuardManager (some "priv") (some "pub") false).1 =
      .error .addPeerFailure ∧
    (setupPeer newWireGuardManager (some "priv") (some "pub") false).2.nextIP =
      [0, 0, 0, 0, 0, 0, 0, 0, 0, 0, 255, 255, 10, 10, 0, 2] ∧
    (setupPeer newWireGuardManager (some "priv") (some "pub") false).2.nextIP ≠
      newWireGuardManager.nextIP := by
  refine ⟨rfl, rfl, ?_⟩
  intro hc
  have h3 : ([0, 0, 0, 0, 0, 0, 0, 0, 0, 0, 255, 255, 10, 10, 0, 2] : List Nat) =
      [0, 0, 0, 0, 0, 0, 0, 0, 0, 0, 255, 255, 10, 10, 0, 1] := hc
  simp at h3

/-- **C2** amended: when `SetupPeer` fails because key generation
fails, or because the block is exhausted, the allocator state —
in particular the next-address cursor — is unchanged; but when it
fails at the peer-registration step, the cursor has already advanced to
the incremented address: that address is consumed. -/
theorem setupPeer_cursor (w : WireGuardManager) (privRes pubRes : Option String)
    (addPeerOk : Bool) :
    ((privRes = none ∨ pubRes = none) →
      (setupPeer w privRes pubRes addPeerOk).2 = w) ∧
    ((setupPeer w privRes pubRes addPeerOk).1 = .error .allocFailure →
      (setupPeer w privRes pubRes addPeerOk).2 = w) ∧
    ((setupPeer w privRes pubRes addPeerOk).1 = .error .addPeerFailure →
      (setupPeer w privRes pubRes addPeerOk).2.nextIP = incIP w.nextIP) := by
  cases privRes with
  | none => simp [setupPeer]
  | some priv =>
    cases pubRes with
    | none => simp [setupPeer]
    | some pub =>
      unfold setupPeer allocateIP
      by_cases hin : ipnetContains w.netBytes w.maskBytes (incIP w.nextIP) = true
      · cases addPeerOk <;> simp [hin]
      · simp [hin]

/-- Witness for `setupPeer_cursor`: a failed private-key generation on
the fresh allocator leaves it untouched. -/
theorem setupPeer_cursor_witness :
    (setupPeer newWireGuardManager none (some "pub") true).2 = newWireGuardManager :=
  (setupPeer_cursor newWireGuardManager none (some "pub") true).1 (Or.inl rfl)

/-! ## The allocator as a sequence of issuances (for C4)

Under the allocator's mutex, address allocations happen one after the
other, and a failed `allocateIP` leaves the cursor unchanged (so every
later attempt fails identically).  `allocN w n` is therefore the exact
list of addresses issued by `n` consecutive allocation attempts. -/

def allocN : WireGuardManager → Nat → List (List Nat)
  | _, 0 => []
  | w, n + 1 =>
    match allocateIP w with
    | (some ip, w1) => ip :: allocN w1 n
    | (none, _) => []

/-- All entries of a byte list are bytes. -/
def validBytes (l : List Nat) : Prop := ∀ b ∈ l, b < 256

instance (l : List Nat) : Decidable (validBytes l) := by
  unfold validBytes; infer_instance

/-- Little-endian numeric value of a reversed byte list. -/
def valRev : List Nat → Nat
  | [] => 0
  | b :: rest => b + 256 * valRev rest

/-- Big-endian (network-order) numeric value of a byte list. -/
def ipVal (ip : List Nat) : Nat := valRev ip.reverse

theorem incBytesRev_length (l : List Nat) : (incBytesRev l).length = l.length := by
  induction l with
  | nil => rfl
  | cons b rest ih =>
    unfold incBytesRev
    by_cases h : (b + 1) % 256 = 0 <;> simp [h, ih]

theorem incIP_length (ip : List Nat) : (incIP ip).length = ip.length := by
  unfold incIP
  rw [List.length_reverse, incBytesRev_length, List.length_reverse]

theorem validBytes_incBytesRev (l : List Nat) (hv : validBytes l) :
    validBytes (incBytesRev l) := by
  induction l with
  | nil => exact hv
  | cons b rest ih =>
    have hrest : validBytes rest := fun x hx => hv x (List.mem_cons_of_mem _ hx)
    unfold incBytesRev
    by_cases h : (b + 1) % 256 = 0
    · simp only [h, if_true]
      intro x hx
      rcases List.mem_cons.mp hx with rfl | hx'
      · omega
      · exact ih hrest x hx'
    · simp only [h, if_false]
      intro x hx
      rcases List.mem_cons.mp hx with rfl | hx'
      · exact Nat.mod_lt _ (by omega)
      · exact hrest x hx'

theorem validBytes_reverse (l : List Nat) (hv : validBytes l) :
    validBytes l.reverse := fun b hb => hv b (List.mem_reverse.mp hb)

theorem validBytes_incIP (ip : List Nat) (hv : validBytes ip) :
    validBytes (incIP ip) := by
  intro b hb
  exact validBytes_incBytesRev ip.reverse (validBytes_reverse ip hv) b
    (List.mem_reverse.mp hb)

/-- The carrying increment either wraps an all-255 list to all-0, or
adds exactly one to the numeric value. -/
theorem incBytesRev_val (l : List Nat) (hv : validBytes l) :
    (l = List.replicate l.length 255 ∧
      incBytesRev l = List.replicate l.length 0) ∨
    valRev (incBytesRev l) = valRev l + 1 := by
  induction l with
  | nil => exact Or.inl ⟨rfl, rfl⟩
  | cons b rest ih =>
    have hb : b < 256 := hv b (List.mem_cons_self _ _)
    have hrest : validBytes rest := fun x hx => hv x (List.mem_cons_of_mem _ hx)
    unfold incBytesRev
    by_cases h : (b + 1) % 256 = 0
    · have hb255 : b = 255 := by omega
      simp only [h, if_true]
      rcases ih hrest with ⟨h1, h2⟩ | hval
      · left
        constructor
        · rw [List.length_cons, List.replicate_succ, ← h1, hb255]
        · rw [List.length_cons, List.replicate_succ, ← h2]
      · right
        simp only [valRev]
        rw [hval, hb255]
        ring
    · right
      have hb' : b + 1 < 256 := by omega
      rw [if_neg h]
      simp only [valRev]
      rw [Nat.mod_eq_of_lt hb']
      ring

/-- Network-order version of `incBytesRev_val`. -/
theorem incIP_val (ip : List Nat) (hv : validBytes ip) :
    incIP ip = List.replicate ip.length 0 ∨ ipVal (incIP ip) = ipVal ip + 1 := by
  rcases incBytesRev_val ip.reverse (validBytes_reverse ip hv) with ⟨_, h2⟩ | hval
  · left
    rw [incIP, h2, List.length_reverse]
    exact List.reverse_replicate _ _
  · right
    rw [ipVal, incIP, List.reverse_reverse, hval, ipVal]

theorem allocN_succ_pos (w : WireGuardManager) (n : Nat)
    (hin : ipnetContains w.netBytes w.maskBytes (incIP w.nextIP) = true) :
    allocN w (n + 1) =
      incIP w.nextIP :: allocN { w with nextIP := incIP w.nextIP } n := by
  conv_lhs => unfold allocN
  unfold allocateIP
  simp [hin]

theorem allocN_succ_neg (w : WireGuardManager) (n : Nat)
    (hin : ¬ ipnetContains w.netBytes w.maskBytes (incIP w.nextIP) = true) :
    allocN w (n + 1) = [] := by
  conv_lhs => unfold allocN
  unfold allocateIP
  simp [hin]

/-- Every issued address passes the block-membership check. -/
theorem allocN_mem_contains (n : Nat) : ∀ (w : WireGuardManager),
    ∀ ip ∈ allocN w n, ipnetContains w.netBytes w.maskBytes ip = true := by
  induction n with
  | zero => intro w ip hip; simp [allocN] at hip
  | succ n ih =>
    intro w ip hip
    by_cases hin : ipnetContains w.netBytes w.maskBytes (incIP w.nextIP) = true
    · rw [allocN_succ_pos w n hin] at hip
      rcases List.mem_cons.mp hip with rfl | hip'
      · exact hin
      · exact ih { w with nextIP := incIP w.nextIP } ip hip'
    · rw [allocN_succ_neg w n hin] at hip
      simp at hip

/-- The first issued address is the increment of the cursor. -/
theorem allocN_get_zero (n : Nat) : ∀ (w : WireGuardManager) (ip : List Nat),
    (allocN w n).get? 0 = some ip → ip = incIP w.nextIP := by
  induction n with
  | zero => intro w ip h; simp [allocN] at h
  | succ n _ =>
    intro w ip h
    by_cases hin : ipnetContains w.netBytes w.maskBytes (incIP w.nextIP) = true
    · rw [allocN_succ_pos w n hin] at h
      simp at h
      exact h.symm
    · rw [allocN_succ_neg w n hin] at h
      simp at h

/-- Each issued address is the increment of the previously issued one. -/
theorem allocN_chain (n : Nat) : ∀ (w : WireGuardManager) (i : Nat)
    (ip ip' : List Nat), (allocN w n).get? i = some ip →
    (allocN w n).get? (i + 1) = some ip' → ip' = incIP ip := by
  induction n with
  | zero => intro w i ip ip' h _; simp [allocN] at h
  | succ n ih =>
    intro w i ip ip' h h'
    by_cases hin : ipnetContains w.netBytes w.maskBytes (incIP w.nextIP) = true
    · rw [allocN_succ_pos w n hin] at h h'
      cases i with
      | zero =>
        simp only [List.get?_cons_zero, Option.some.injEq] at h
        simp only [List.get?_cons_succ] at h'
        rw [allocN_get_zero n { w with nextIP := incIP w.nextIP } ip' h', ← h]
      | succ j =>
        simp only [List.get?_cons_succ] at h h'
        exact ih { w with nextIP := incIP w.nextIP } j ip ip' h h'
    · rw [allocN_succ_neg w n hin] at h
      simp at h

/-- The numeric values of the issued addresses count up from the
cursor's value: the address with index `i` has value
`ipVal w.nextIP + i + 1`. -/
theorem allocN_val (n : Nat) : ∀ (w : WireGuardManager),
    validBytes w.nextIP →
    ipnetContains w.netBytes w.maskBytes
      (List.replicate w.nextIP.length 0) = false →
    ∀ (i : Nat) (ip : List Nat), (allocN w n).get? i = some ip →
    ipVal ip = ipVal w.nextIP + i + 1 := by
  induction n with
  | zero => intro w _ _ i ip h; simp [allocN] at h
  | succ n ih =>
    intro w hv hzero i ip h
    by_cases hin : ipnetContains w.netBytes w.maskBytes (incIP w.nextIP) = true
    · have hnowrap : ipVal (incIP w.nextIP) = ipVal w.nextIP + 1 := by
        rcases incIP_val w.nextIP hv with hwrap | hval
        · rw [hwrap] at hin
          rw [hin] at hzero
          exact absurd hzero (by simp)
        · exact hval
      rw [allocN_succ_pos w n hin] at h
      cases i with
      | zero =>
        simp only [List.get?_cons_zero, Option.some.injEq] at h
        rw [← h]
        omega
      | succ j =>
        simp only [List.get?_cons_succ] at h
        have hv1 : validBytes (incIP w.nextIP) := validBytes_incIP w.nextIP hv
        have hzero1 : ipnetContains w.netBytes w.maskBytes
            (List.replicate (incIP w.nextIP).length 0) = false := by
          rw [incIP_length]
          exact hzero
        have := ih { w with nextIP := incIP w.nextIP } hv1 hzero1 j ip h
        simp only at this
        omega
    · rw [allocN_succ_neg w n hin] at h
      simp at h

/-- **C4** (confirmed).  For any allocator state with byte-valued
cursor over a block that excludes the all-zero address (as the
configured `10.10.0.0/16` block does), a run of successive allocations
issues pairwise-distinct addresses, every issued address lies inside
the configured block, the first issued address is the network-order
byte increment of the initial cursor, and each later address is the
byte increment of the previously issued one. -/
theorem allocator_issuance (w : WireGuardManager) (n : Nat)
    (hv : validBytes w.nextIP)
    (hzero : ipnetContains w.netBytes w.maskBytes
      (List.replicate w.nextIP.length 0) = false) :
    (allocN w n).Nodup ∧
    (∀ ip ∈ allocN w n, ipnetContains w.netBytes w.maskBytes ip = true) ∧
    (∀ ip : List Nat, (allocN w n).get? 0 = some ip → ip = incIP w.nextIP) ∧
    (∀ (i : Nat) (ip ip' : List Nat), (allocN w n).get? i = some ip →
      (allocN w n).get? (i + 1) = some ip' → ip' = incIP ip) := by
  refine ⟨?_, allocN_mem_contains n w, allocN_get_zero n w, allocN_chain n w⟩
  rw [List.nodup_iff_injective_get]
  intro i j hij
  have h1 : (allocN w n).get? i.1 = some ((allocN w n).get i) := by
    rw [List.get?_eq_get i.2]
  have h2 : (allocN w n).get? j.1 = some ((allocN w n).get j) := by
    rw [List.get?_eq_get j.2]
  have v1 := allocN_val n w hv hzero i.1 _ h1
  have v2 := allocN_val n w hv hzero j.1 _ h2
  rw [hij] at v1
  apply Fin.ext
  omega

/-- Witness for `allocator_issuance`: from the freshly constructed
allocator, three allocations issue `10.10.0.2`, `10.10.0.3`,
`10.10.0.4` (16-byte IPv4-in-IPv6 form), pairwise distinct. -/
theorem allocator_issuance_witness :
    allocN newWireGuardManager 3 =
      [[0, 0, 0, 0, 0, 0, 0, 0, 0, 0, 255, 255, 10, 10, 0, 2],
       [0, 0, 0, 0, 0, 0, 0, 0, 0, 0, 255, 255, 10, 10, 0, 3],
       [0, 0, 0, 0, 0, 0, 0, 0, 0, 0, 255, 255, 10, 10, 0, 4]] ∧
    (allocN newWireGuardManager 3).Nodup :=
  ⟨by decide, (allocator_issuance newWireGuardManager 3 (by decide) (by decide)).1⟩

end EasyTunnelLB
